import Mathlib

/-!
Verification development for the credit-ledger and subscription-cap engine of
the dashboard.bfeai repository (netlify functions `utils/credits` segment of
`stripe-portal.ts`, webhook handler, and idempotency helpers of `utils/stripe.ts`).

Shallow embedding conventions:
* The store is modelled per user: the `user_credits` row (or `none` when it does
  not exist), the `credit_transactions` append-only log, and a counter supplying
  the ids the database would generate for inserted transactions.
* Timestamps are natural numbers; `now` is passed explicitly to every operation
  that reads the clock.  `trial_expires_at` is an `Option Nat`.
* Credit amounts are integers (JS numbers used as integers in the source).
* The credit-cost catalog (`app_credit_config` table) and the plan catalog
  (`config/plans.ts`, not part of the sources here) are abstract lookup
  functions passed as parameters.
* A supabase `update ... eq user_id` on a missing row updates nothing; this is
  modelled with `Option.map`.  Timestamp columns `updated_at` / `last_allocated`
  carry no ledger content and are not modelled.
* Store/network failures are not modelled except where an operation's own code
  turns them into a value (`recalculateSubscriptionCap` returns the default cap
  on a failed subscription fetch; this is the `none` fetch argument below).
-/

set_option autoImplicit false

namespace BfeaiCredits

/-- Credit pool of a transaction row (`pool` column). -/
inductive Pool where
  | subscription
  | topup
  | trial
deriving Repr, DecidableEq

/-- Transaction type tag (`type` column) as written by the engine. -/
inductive TxType where
  | usage_deduction
  | subscription_allocation
  | topup_purchase
  | retention_bonus
  | trial_allocation
  | trial_expiry
  | trial_merge
  | trial_merge_overflow
deriving Repr, DecidableEq

/-- The `user_credits` row for one user, as read and written by the engine. -/
structure AccountRow where
  subscription_balance : Int
  topup_balance : Int
  trial_balance : Int
  trial_expires_at : Option Nat
  subscription_cap : Int
  lifetime_earned : Int
  lifetime_spent : Int
deriving Repr, DecidableEq

/-- One `credit_transactions` row (per-user columns only). -/
structure Txn where
  id : Nat
  amount : Int
  balance_after : Int
  pool : Pool
  type : TxType
  description : String
  app_key : Option String
  reference_id : Option String
deriving Repr, DecidableEq

/-- Per-user view of the ledger store: the account row (if any), the
transaction log in insertion order, and the next database-generated id. -/
structure Store where
  account : Option AccountRow
  txns : List Txn
  nextId : Nat
deriving Repr, DecidableEq

/-- The empty store: no `user_credits` row, empty transaction log. -/
def initialStore : Store := ⟨none, [], 0⟩

/-- Append one transaction row, returning the generated id and the new store. -/
def insertTxn (s : Store) (amount balance_after : Int) (pool : Pool) (ty : TxType)
    (description : String) (app_key reference_id : Option String) : Nat × Store :=
  (s.nextId,
   { s with
       txns := s.txns ++ [⟨s.nextId, amount, balance_after, pool, ty, description,
                           app_key, reference_id⟩],
       nextId := s.nextId + 1 })

/-- `update ... eq user_id`: rewrites the row when it exists, does nothing
otherwise. -/
def updateAccount (f : AccountRow → AccountRow) (s : Store) : Store :=
  { s with account := s.account.map f }

/-- Result shape of `getBalance`. -/
structure CreditBalance where
  subscriptionBalance : Int
  topupBalance : Int
  trialBalance : Int
  total : Int
  cap : Int
  lifetimeEarned : Int
  lifetimeSpent : Int
deriving Repr, DecidableEq

/-- Trial balance as evaluated at read time: zero once `trial_expires_at` has
passed (`trialExpiresAt < now` in the source), the stored value otherwise. -/
def effectiveTrial (now : Nat) (row : AccountRow) : Int :=
  match row.trial_expires_at with
  | some t => if t < now then 0 else row.trial_balance
  | none => row.trial_balance

/-- `getBalance`: read-only; zeroed default with cap 900 when no row exists;
trial expiry evaluated inline; `total` is the sum of the three pools. -/
def getBalance (now : Nat) (s : Store) : CreditBalance :=
  match s.account with
  | none => ⟨0, 0, 0, 0, 900, 0, 0⟩
  | some row =>
      let trialBalance := effectiveTrial now row
      ⟨row.subscription_balance, row.topup_balance, trialBalance,
       row.subscription_balance + row.topup_balance + trialBalance,
       row.subscription_cap, row.lifetime_earned, row.lifetime_spent⟩

/-- Failure conditions surfaced by the deduction path (`HttpError` 402 / 404). -/
inductive CreditError where
  | insufficientCredits (required available : Int)
  | unknownOperation (appKey operation : String)
deriving Repr, DecidableEq

/-- `getCreditCost`: looks up `app_credit_config`; unknown (app, operation)
pairs raise the 404 `Unknown operation` error. -/
def getCreditCost (catalog : String → String → Option Int)
    (appKey operation : String) : Except CreditError Int :=
  match catalog appKey operation with
  | some c => Except.ok c
  | none => Except.error (CreditError.unknownOperation appKey operation)

/-- Result shape of `deductCredits`; `transactionId` is `none` for the
source's empty-string sentinel (no pool transaction written). -/
structure DeductResult where
  newBalance : Int
  transactionId : Option Nat
deriving Repr, DecidableEq

/-- `deductCredits`: cost lookup, insufficient-balance check, fixed drain order
(trial, then topup, then subscription), single row update including
`lifetime_spent`, then one `usage_deduction` transaction per pool actually
drained, with progressively computed `balance_after`. -/
def deductCredits (catalog : String → String → Option Int) (now : Nat)
    (appKey operation : String) (referenceId : Option String) (s : Store) :
    Except CreditError (DeductResult × Store) :=
  match getCreditCost catalog appKey operation with
  | Except.error e => Except.error e
  | Except.ok cost =>
    let balance := getBalance now s
    if balance.total < cost then
      Except.error (CreditError.insufficientCredits cost balance.total)
    else
      let deductFromTrial := min cost balance.trialBalance
      let remainingAfterTrial := cost - deductFromTrial
      let deductFromTopup := min remainingAfterTrial balance.topupBalance
      let deductFromSub := remainingAfterTrial - deductFromTopup
      let newTrial := balance.trialBalance - deductFromTrial
      let newTopup := balance.topupBalance - deductFromTopup
      let newSub := balance.subscriptionBalance - deductFromSub
      let newBalance := balance.total - cost
      let s1 := updateAccount (fun row =>
        { row with
            trial_balance := newTrial,
            topup_balance := newTopup,
            subscription_balance := newSub,
            lifetime_spent := balance.lifetimeSpent + cost }) s
      let desc := s!"{operation} ({appKey})"
      let step1 : Option Nat × Store :=
        if deductFromTrial > 0 then
          let (i, s2) := insertTxn s1 (-deductFromTrial) (balance.total - deductFromTrial)
            Pool.trial TxType.usage_deduction desc (some appKey) referenceId
          (some i, s2)
        else (none, s1)
      let step2 : Option Nat × Store :=
        if deductFromTopup > 0 then
          let (i, s3) := insertTxn step1.2 (-deductFromTopup)
            (balance.total - deductFromTrial - deductFromTopup)
            Pool.topup TxType.usage_deduction desc (some appKey) referenceId
          (some i, s3)
        else step1
      let step3 : Option Nat × Store :=
        if deductFromSub > 0 then
          let (i, s4) := insertTxn step2.2 (-deductFromSub) newBalance
            Pool.subscription TxType.usage_deduction desc (some appKey) referenceId
          (some i, s4)
        else step2
      Except.ok (⟨newBalance, step3.1⟩, step3.2)

/-- Modelled from the spec: column defaults of a freshly inserted `user_credits`
row (`insert({ user_id })` relies on the database schema, which is not among
the sources).  The spec gives a zeroed account with cap 900, matching the
in-code default that `getBalance` returns for a missing row. -/
def defaultRow : AccountRow :=
  ⟨0, 0, 0, none, 900, 0, 0⟩

/-- `ensureUserCreditsRow`: inserts a default row when none exists. -/
def ensureUserCreditsRow (s : Store) : Store :=
  match s.account with
  | some _ => s
  | none => { s with account := some defaultRow }

/-- Result shape of the allocation operations. -/
structure AllocateResult where
  newBalance : Int
  allocated : Int
deriving Repr, DecidableEq

/-- `allocateSubscriptionCredits`: allocates `min amount headroom` where
`headroom = max 0 (cap - subscriptionBalance)`; at cap (`allocated == 0`) it
returns without writing; otherwise one row update and one
`subscription_allocation` transaction. -/
def allocateSubscriptionCredits (now : Nat) (amount : Int) (appKey : String)
    (referenceId : Option String) (s : Store) : AllocateResult × Store :=
  let s0 := ensureUserCreditsRow s
  let balance := getBalance now s0
  let headroom := max 0 (balance.cap - balance.subscriptionBalance)
  let allocated := min amount headroom
  if allocated = 0 then
    (⟨balance.total, 0⟩, s0)
  else
    let newSubBalance := balance.subscriptionBalance + allocated
    let newTotal := balance.total + allocated
    let s1 := updateAccount (fun row =>
      { row with
          subscription_balance := newSubBalance,
          lifetime_earned := balance.lifetimeEarned + allocated }) s0
    let s2 := (insertTxn s1 allocated newTotal Pool.subscription
      TxType.subscription_allocation s!"Monthly allocation ({appKey})"
      (some appKey) referenceId).2
    (⟨newTotal, allocated⟩, s2)

/-- `allocateTopUpCredits`: uncapped; always allocates the full amount and
writes one `topup_purchase` transaction. -/
def allocateTopUpCredits (now : Nat) (amount : Int) (packName : String)
    (referenceId : Option String) (s : Store) : AllocateResult × Store :=
  let s0 := ensureUserCreditsRow s
  let balance := getBalance now s0
  let newTopup := balance.topupBalance + amount
  let newTotal := balance.total + amount
  let s1 := updateAccount (fun row =>
    { row with
        topup_balance := newTopup,
        lifetime_earned := balance.lifetimeEarned + amount }) s0
  let s2 := (insertTxn s1 amount newTotal Pool.topup TxType.topup_purchase
    s!"{packName} top-up" none referenceId).2
  (⟨newTotal, amount⟩, s2)

/-- `allocateRetentionBonus`: mechanically a top-up (uncapped, same pool) but
tagged `retention_bonus` with no app key or reference id. -/
def allocateRetentionBonus (now : Nat) (amount : Int) (s : Store) :
    AllocateResult × Store :=
  let s0 := ensureUserCreditsRow s
  let balance := getBalance now s0
  let newTopup := balance.topupBalance + amount
  let newTotal := balance.total + amount
  let s1 := updateAccount (fun row =>
    { row with
        topup_balance := newTopup,
        lifetime_earned := balance.lifetimeEarned + amount }) s0
  let s2 := (insertTxn s1 amount newTotal Pool.topup TxType.retention_bonus
    "Retention offer bonus credits" none none).2
  (⟨newTotal, amount⟩, s2)

/-- `allocateTrialCredits`: overwrites `trial_balance` with `amount`, sets
`trial_expires_at`, bumps `lifetime_earned`, writes one `trial_allocation`
transaction. -/
def allocateTrialCredits (now : Nat) (amount : Int) (appKey : String)
    (trialEndsAt : Nat) (referenceId : Option String) (s : Store) :
    AllocateResult × Store :=
  let s0 := ensureUserCreditsRow s
  let balance := getBalance now s0
  let s1 := updateAccount (fun row =>
    { row with
        trial_balance := amount,
        trial_expires_at := some trialEndsAt,
        lifetime_earned := balance.lifetimeEarned + amount }) s0
  let s2 := (insertTxn s1 amount (balance.total + amount) Pool.trial
    TxType.trial_allocation s!"Trial credits ({appKey})"
    (some appKey) referenceId).2
  (⟨balance.total + amount, amount⟩, s2)

/-- `expireTrialCredits`: reads the raw stored `trial_balance`; no-op at zero;
otherwise zeroes the trial fields and writes one negative `trial_expiry`
transaction whose `balance_after` is the post-update total.  It never touches
`lifetime_spent`. -/
def expireTrialCredits (now : Nat) (appKey reason : String) (s : Store) : Store :=
  let trialBalance :=
    match s.account with
    | some row => row.trial_balance
    | none => 0
  if trialBalance = 0 then s
  else
    let s1 := updateAccount (fun row =>
      { row with trial_balance := 0, trial_expires_at := none }) s
    let balance := getBalance now s1
    (insertTxn s1 (-trialBalance) balance.total Pool.trial TxType.trial_expiry
      s!"Trial credits expired: {reason}" (some appKey) none).2

/-- `mergeTrialCredits`: reads the raw stored `trial_balance` (no expiry
check); no-op at zero; otherwise merges `min trialBalance headroom` into the
subscription pool, clears the trial fields, logs a `trial_merge` transaction
when something merged and a negative `trial_merge_overflow` transaction for
credits lost to the cap. -/
def mergeTrialCredits (now : Nat) (appKey : String) (s : Store) : Int × Store :=
  let trialBalance :=
    match s.account with
    | some row => row.trial_balance
    | none => 0
  if trialBalance = 0 then (0, s)
  else
    let subBalance :=
      match s.account with
      | some row => row.subscription_balance
      | none => 0
    let cap :=
      match s.account with
      | some row => row.subscription_cap
      | none => 900
    let headroom := max 0 (cap - subBalance)
    let merged := min trialBalance headroom
    let s1 := updateAccount (fun row =>
      { row with
          trial_balance := 0,
          trial_expires_at := none,
          subscription_balance := subBalance + merged }) s
    let s2 :=
      if merged > 0 then
        let balance := getBalance now s1
        (insertTxn s1 merged balance.total Pool.subscription TxType.trial_merge
          s!"Trial credits merged on conversion ({appKey})" (some appKey) none).2
      else s1
    let lost := trialBalance - merged
    let s3 :=
      if lost > 0 then
        let balance := getBalance now s2
        (insertTxn s2 (-lost) balance.total Pool.trial
          TxType.trial_merge_overflow
          s!"Trial credits lost on merge (cap reached) ({appKey})"
          (some appKey) none).2
      else s2
    (merged, s3)

/-- Subscription plan entry (`config/plans.ts`, consumed abstractly): only the
`creditCap` field matters to the cap reconciler. -/
structure Plan where
  creditCap : Int
deriving Repr, DecidableEq

/-- One `app_subscriptions` row as read by the cap reconciler. -/
structure SubRecord where
  app_key : String
  stripe_price_id : Option String
  status : String
deriving Repr, DecidableEq

/-- Statuses that count toward the cap (the `in("status", ...)` filter of the
subscription query). -/
def capStatuses : List String := ["active", "trialing", "past_due"]

/-- Cap contribution of one qualifying subscription: plan found by Stripe price
id first, else the app-key fallback plan, else the 900 default.  The two plan
lookups (`findSubscriptionByPriceId`, `findSubscriptionPlan` of
`config/plans.ts`) are abstract parameters. -/
def subCapContribution (byPriceId byAppKey : String → Option Plan)
    (sub : SubRecord) : Int :=
  let plan :=
    match sub.stripe_price_id with
    | some pid => byPriceId pid
    | none => none
  match plan with
  | some p => p.creditCap
  | none =>
      match byAppKey sub.app_key with
      | some fallback => fallback.creditCap
      | none => 900

/-- `recalculateSubscriptionCap`: `fetch = none` models a failed subscription
read, on which the source logs and returns the 900 default without writing.
Otherwise the cap is 900 when no subscription qualifies, else the sum of the
per-subscription contributions, and the result is written to the account row
(when it exists) and returned. -/
def recalculateSubscriptionCap (byPriceId byAppKey : String → Option Plan)
    (fetch : Option (List SubRecord)) (s : Store) : Int × Store :=
  match fetch with
  | none => (900, s)
  | some allSubs =>
      let subs := allSubs.filter (fun sub => capStatuses.contains sub.status)
      let totalCap :=
        if subs.isEmpty then 900
        else subs.foldl (fun acc sub => acc + subCapContribution byPriceId byAppKey sub) 0
      let s1 := updateAccount (fun row => { row with subscription_cap := totalCap }) s
      (totalCap, s1)

/-- External lookups the engine consults: the credit-cost catalog and the two
plan-catalog lookups. -/
structure Env where
  catalog : String → String → Option Int
  byPriceId : String → Option Plan
  byAppKey : String → Option Plan

/-- One engine operation, with every clock reading and external view it
consumes as explicit data. -/
inductive Op where
  | deduct (now : Nat) (appKey operation : String) (refId : Option String)
  | allocSub (now : Nat) (amount : Int) (appKey : String) (refId : Option String)
  | allocTopup (now : Nat) (amount : Int) (packName : String) (refId : Option String)
  | allocBonus (now : Nat) (amount : Int)
  | allocTrial (now : Nat) (amount : Int) (appKey : String) (trialEndsAt : Nat)
      (refId : Option String)
  | expireTrial (now : Nat) (appKey reason : String)
  | mergeTrial (now : Nat) (appKey : String)
  | recalcCap (fetch : Option (List SubRecord))
  | readBalance (now : Nat)

/-- Effect of one operation on the store.  A failed deduction leaves the store
as it was (the source throws before any write). -/
def applyOp (env : Env) (op : Op) (s : Store) : Store :=
  match op with
  | Op.deduct now appKey operation refId =>
      match deductCredits env.catalog now appKey operation refId s with
      | Except.ok (_, s1) => s1
      | Except.error _ => s
  | Op.allocSub now amount appKey refId =>
      (allocateSubscriptionCredits now amount appKey refId s).2
  | Op.allocTopup now amount packName refId =>
      (allocateTopUpCredits now amount packName refId s).2
  | Op.allocBonus now amount => (allocateRetentionBonus now amount s).2
  | Op.allocTrial now amount appKey trialEndsAt refId =>
      (allocateTrialCredits now amount appKey trialEndsAt refId s).2
  | Op.expireTrial now appKey reason => expireTrialCredits now appKey reason s
  | Op.mergeTrial now appKey => (mergeTrialCredits now appKey s).2
  | Op.recalcCap fetch =>
      (recalculateSubscriptionCap env.byPriceId env.byAppKey fetch s).2
  | Op.readBalance _ => s

/-- Whether an operation is the cap reconciler. -/
def Op.isRecalcCap : Op → Bool
  | Op.recalcCap _ => true
  | _ => false

/-- Run a sequence of engine operations from a starting store. -/
def runOps (env : Env) (ops : List Op) (s : Store) : Store :=
  ops.foldl (fun st op => applyOp env op st) s

/-- The cap bound of the spec invariant: `subscriptionBalance ≤ subscriptionCap`
whenever the account row exists. -/
def capInvariant (s : Store) : Prop :=
  ∀ row, s.account = some row → row.subscription_balance ≤ row.subscription_cap

instance (s : Store) : Decidable (capInvariant s) := by
  unfold capInvariant
  cases s.account with
  | none => exact isTrue (by intro row h; cases h)
  | some r =>
      exact decidable_of_iff (r.subscription_balance ≤ r.subscription_cap)
        ⟨fun h row hr => by cases hr; exact h, fun h => h r rfl⟩

end BfeaiCredits

namespace BfeaiWebhook

open BfeaiCredits

/-- Outcome of the webhook handler after signature verification: the duplicate
short-circuit (200 with `duplicate: true`), successful processing (200), or the
500 response produced by the catch block around the dispatch. -/
inductive WebhookOutcome where
  | processedOk
  | duplicateOk
  | handlerFailed
deriving Repr, DecidableEq

/-- The idempotency table (`stripe_events`, keyed by event id) plus the world
the event handlers act on (abstracted: the handlers call the ledger engines and
external services). -/
structure EventStore (σ : Type) where
  processed : List String
  world : σ

/-- The webhook handler after signature verification, `stripe-webhook`
function: duplicate short-circuit via `isEventProcessed`; otherwise dispatch by
event type — modelled as a function returning the possibly-thrown error and the
world after the handler's (possibly partial) side effects — then
`markEventProcessed` exactly once on success; on a thrown error the event is
not marked and the call reports failure. -/
def handleProviderEvent {σ ε : Type} (dispatch : String → σ → Option ε × σ)
    (eventId eventType : String) (es : EventStore σ) :
    WebhookOutcome × EventStore σ :=
  if es.processed.contains eventId then
    (WebhookOutcome.duplicateOk, es)
  else
    match dispatch eventType es.world with
    | (none, w) =>
        (WebhookOutcome.processedOk, ⟨es.processed ++ [eventId], w⟩)
    | (some _, w) =>
        (WebhookOutcome.handlerFailed, ⟨es.processed, w⟩)

end BfeaiWebhook

namespace BfeaiCredits

/-! Claim-side formulas, written from the specification's wording, to be
compared with the engine definitions above. -/

/-- Spec formula: amount allocatable before hitting the cap,
`min amount (max 0 (cap - subscriptionBalance))`. -/
def specAllocated (amount cap sub : Int) : Int :=
  min amount (max 0 (cap - sub))

/-- Spec drain order, first pool: `fromTrial = min(c, trialBalance)`. -/
def specFromTrial (c : Int) (b : CreditBalance) : Int :=
  min c b.trialBalance

/-- Spec drain order, second pool: `fromTopup = min(c - fromTrial, topupBalance)`. -/
def specFromTopup (c : Int) (b : CreditBalance) : Int :=
  min (c - specFromTrial c b) b.topupBalance

/-- Spec drain order, third pool: `fromSub = c - fromTrial - fromTopup`. -/
def specFromSub (c : Int) (b : CreditBalance) : Int :=
  c - specFromTrial c b - specFromTopup c b

/-- Spec description of the transactions a deduction writes: one
`usage_deduction` row per pool with a positive deduction, in drain order, with
progressively computed `balance_after` values and database ids continuing from
`n`. -/
def specDeductTxns (c : Int) (b : CreditBalance) (appKey operation : String)
    (refId : Option String) (n : Nat) : List Txn :=
  (if 0 < specFromTrial c b then
    [⟨n, -(specFromTrial c b), b.total - specFromTrial c b, Pool.trial,
      TxType.usage_deduction, s!"{operation} ({appKey})", some appKey, refId⟩]
   else []) ++
  (if 0 < specFromTopup c b then
    [⟨n + (if 0 < specFromTrial c b then 1 else 0), -(specFromTopup c b),
      b.total - specFromTrial c b - specFromTopup c b, Pool.topup,
      TxType.usage_deduction, s!"{operation} ({appKey})", some appKey, refId⟩]
   else []) ++
  (if 0 < specFromSub c b then
    [⟨n + (if 0 < specFromTrial c b then 1 else 0) +
        (if 0 < specFromTopup c b then 1 else 0), -(specFromSub c b),
      b.total - c, Pool.subscription,
      TxType.usage_deduction, s!"{operation} ({appKey})", some appKey, refId⟩]
   else [])

/-- Spec tie-break for the returned transaction id: the last pool transaction
written — subscription if touched, else top-up, else trial, else none. -/
def specDeductTid (c : Int) (b : CreditBalance) (n : Nat) : Option Nat :=
  if 0 < specFromSub c b then
    some (n + (if 0 < specFromTrial c b then 1 else 0) +
      (if 0 < specFromTopup c b then 1 else 0))
  else if 0 < specFromTopup c b then
    some (n + (if 0 < specFromTrial c b then 1 else 0))
  else if 0 < specFromTrial c b then some n
  else none

/-- Number of transaction rows a deduction writes (pools actually drained). -/
def specDeductCount (c : Int) (b : CreditBalance) : Nat :=
  (if 0 < specFromTrial c b then 1 else 0) +
  (if 0 < specFromTopup c b then 1 else 0) +
  (if 0 < specFromSub c b then 1 else 0)

/-- Spec description of the transactions a trial merge writes: one
`trial_merge` row of +merged when something merged, one negative
`trial_merge_overflow` row when credits were lost to the cap, both with the
post-merge total as `balance_after`. -/
def specMergeTxns (row : AccountRow) (appKey : String) (n : Nat) : List Txn :=
  (if 0 < specAllocated row.trial_balance row.subscription_cap row.subscription_balance then
    [⟨n, specAllocated row.trial_balance row.subscription_cap row.subscription_balance,
      row.subscription_balance +
        specAllocated row.trial_balance row.subscription_cap row.subscription_balance +
        row.topup_balance,
      Pool.subscription, TxType.trial_merge,
      s!"Trial credits merged on conversion ({appKey})", some appKey, none⟩]
   else []) ++
  (if 0 < row.trial_balance -
      specAllocated row.trial_balance row.subscription_cap row.subscription_balance then
    [⟨n + (if 0 < specAllocated row.trial_balance row.subscription_cap
            row.subscription_balance then 1 else 0),
      -(row.trial_balance -
        specAllocated row.trial_balance row.subscription_cap row.subscription_balance),
      row.subscription_balance +
        specAllocated row.trial_balance row.subscription_cap row.subscription_balance +
        row.topup_balance,
      Pool.trial, TxType.trial_merge_overflow,
      s!"Trial credits lost on merge (cap reached) ({appKey})", some appKey, none⟩]
   else [])

/-- Number of transaction rows a trial merge writes. -/
def specMergeCount (row : AccountRow) : Nat :=
  (if 0 < specAllocated row.trial_balance row.subscription_cap
      row.subscription_balance then 1 else 0) +
  (if 0 < row.trial_balance -
      specAllocated row.trial_balance row.subscription_cap
        row.subscription_balance then 1 else 0)

/-- Environment whose catalog and plan lookups all come up empty: every cap
contribution falls through to the 900 default. -/
def envNone : Env :=
  ⟨fun _ _ => none, fun _ => none, fun _ => none⟩

end BfeaiCredits


namespace BfeaiCredits

/-! Helper lemmas shared by several claim theorems. -/

theorem mergeTrialCredits_pos_eq (now : Nat) (appKey : String)
    (row : AccountRow) (txns : List Txn) (n : Nat)
    (hpos : row.trial_balance ≠ 0) :
    mergeTrialCredits now appKey ⟨some row, txns, n⟩ =
      (specAllocated row.trial_balance row.subscription_cap row.subscription_balance,
       ⟨some { row with
           trial_balance := 0,
           trial_expires_at := none,
           subscription_balance := row.subscription_balance +
             specAllocated row.trial_balance row.subscription_cap
               row.subscription_balance },
        txns ++ specMergeTxns row appKey n,
        n + specMergeCount row⟩) := by
  by_cases hm : 0 < min row.trial_balance
      (max 0 (row.subscription_cap - row.subscription_balance)) <;>
    by_cases hl : 0 < row.trial_balance - min row.trial_balance
        (max 0 (row.subscription_cap - row.subscription_balance)) <;>
    simp only [mergeTrialCredits, specAllocated, specMergeTxns, specMergeCount,
      updateAccount, insertTxn, getBalance, effectiveTrial, gt_iff_lt,
      hpos, hm, hl, if_true, if_false, ite_true, ite_false,
      Option.map_some', add_zero, List.append_nil, List.nil_append,
      List.append_assoc]

theorem mergeTrialCredits_zero_eq (now : Nat) (appKey : String)
    (row : AccountRow) (txns : List Txn) (n : Nat)
    (hz : row.trial_balance = 0) :
    mergeTrialCredits now appKey ⟨some row, txns, n⟩ = (0, ⟨some row, txns, n⟩) := by
  simp [mergeTrialCredits, hz]

theorem foldl_add_eq_sum {α : Type} (f : α → Int) (l : List α) (a : Int) :
    l.foldl (fun acc x => acc + f x) a = a + (l.map f).sum := by
  induction l generalizing a with
  | nil => simp
  | cons x xs ih => simp [ih, add_assoc]

/-! Claim theorems. -/

/-- C5: `mergeTrialCredits` on an account with stored `trialBalance > 0` merges
`min trialBalance (max 0 (cap - subscriptionBalance))` into the subscription
pool, clears `trial_balance` and `trial_expires_at`, writes one `trial_merge`
transaction of +merged when merged > 0 and one `trial_merge_overflow`
transaction of -(trialBalance - merged) when credits were lost to the cap;
with `trialBalance = 0` the call is a no-op returning merged = 0. -/
theorem mergeTrialCredits_spec (now : Nat) (appKey : String)
    (row : AccountRow) (txns : List Txn) (n : Nat) :
    (row.trial_balance = 0 →
      mergeTrialCredits now appKey ⟨some row, txns, n⟩ = (0, ⟨some row, txns, n⟩)) ∧
    (0 < row.trial_balance →
      mergeTrialCredits now appKey ⟨some row, txns, n⟩ =
        (specAllocated row.trial_balance row.subscription_cap row.subscription_balance,
         ⟨some { row with
             trial_balance := 0,
             trial_expires_at := none,
             subscription_balance := row.subscription_balance +
               specAllocated row.trial_balance row.subscription_cap
                 row.subscription_balance },
          txns ++ specMergeTxns row appKey n,
          n + specMergeCount row⟩)) :=
  ⟨mergeTrialCredits_zero_eq now appKey row txns n,
   fun h => mergeTrialCredits_pos_eq now appKey row txns n (ne_of_gt h)⟩

/-- Witness for C5: the spec's worked example — `trialBalance = 40`,
`subscriptionBalance = 880`, `cap = 900` merges 20, loses 20, and writes the
`trial_merge` +20 and `trial_merge_overflow` -20 transactions. -/
theorem mergeTrialCredits_spec_witness :
    mergeTrialCredits 0 "keywords" ⟨some ⟨880, 0, 40, none, 900, 0, 0⟩, [], 0⟩ =
      (20,
       ⟨some ⟨900, 0, 0, none, 900, 0, 0⟩,
        [⟨0, 20, 900, Pool.subscription, TxType.trial_merge,
          "Trial credits merged on conversion (keywords)", some "keywords", none⟩,
         ⟨1, -20, 900, Pool.trial, TxType.trial_merge_overflow,
          "Trial credits lost on merge (cap reached) (keywords)", some "keywords", none⟩],
        2⟩) := by
  have h := (mergeTrialCredits_spec 0 "keywords" ⟨880, 0, 40, none, 900, 0, 0⟩ [] 0).2
    (by decide)
  rw [h]; rfl

/-- C10: `mergeTrialCredits` reads the raw stored `trial_balance` and ignores
`trial_expires_at`: on an account whose trial has already expired by timestamp
but whose stored balance is still positive, the expired credits are still
merged into the subscription pool up to the cap headroom. -/
theorem mergeTrialCredits_ignores_expiry (now : Nat) (appKey : String)
    (row : AccountRow) (txns : List Txn) (n : Nat) (t : Nat)
    (_hexp : row.trial_expires_at = some t) (_ht : t < now)
    (hpos : 0 < row.trial_balance) :
    (mergeTrialCredits now appKey ⟨some row, txns, n⟩).1 =
      specAllocated row.trial_balance row.subscription_cap row.subscription_balance ∧
    ((mergeTrialCredits now appKey ⟨some row, txns, n⟩).2).account =
      some { row with
        trial_balance := 0,
        trial_expires_at := none,
        subscription_balance := row.subscription_balance +
          specAllocated row.trial_balance row.subscription_cap
            row.subscription_balance } := by
  rw [mergeTrialCredits_pos_eq now appKey row txns n (ne_of_gt hpos)]
  exact ⟨rfl, rfl⟩

/-- Witness for C10: an account with `trial_expires_at = 5` read at `now = 10`
and stored `trial_balance = 50` still merges all 50 into the subscription
pool. -/
theorem mergeTrialCredits_ignores_expiry_witness :
    (mergeTrialCredits 10 "keywords" ⟨some ⟨100, 0, 50, some 5, 900, 0, 0⟩, [], 0⟩).1 = 50 ∧
    ((mergeTrialCredits 10 "keywords" ⟨some ⟨100, 0, 50, some 5, 900, 0, 0⟩, [], 0⟩).2).account =
      some ⟨150, 0, 0, none, 900, 0, 0⟩ := by
  have h := mergeTrialCredits_ignores_expiry 10 "keywords" ⟨100, 0, 50, some 5, 900, 0, 0⟩
    [] 0 5 rfl (by decide) (by decide)
  exact ⟨h.1.trans (by rfl), h.2.trans (by rfl)⟩

/-- C7: `getBalance` is read-only: a missing row yields the zeroed default
with cap 900 (and no row is created — a balance read leaves the store
untouched); a past `trial_expires_at` makes the reported `trialBalance` 0 and
excludes the trial pool from `total`, while the stored row is unmutated. -/
theorem getBalance_read_only :
    (∀ (now : Nat) (txns : List Txn) (n : Nat),
       getBalance now ⟨none, txns, n⟩ = ⟨0, 0, 0, 0, 900, 0, 0⟩) ∧
    (∀ (env : Env) (now : Nat) (s : Store), applyOp env (Op.readBalance now) s = s) ∧
    (∀ (now : Nat) (s : Store) (row : AccountRow) (t : Nat),
       s.account = some row → row.trial_expires_at = some t → t < now →
       (getBalance now s).trialBalance = 0 ∧
       (getBalance now s).total = row.subscription_balance + row.topup_balance) := by
  refine ⟨fun _ _ _ => rfl, fun _ _ _ => rfl, ?_⟩
  intro now s row t hrow hexp ht
  obtain ⟨acc, txns, n⟩ := s
  simp only [Store.account] at hrow
  subst hrow
  simp [getBalance, effectiveTrial, hexp, ht]

/-- Witness for C7: an account with stored `trial_balance = 50` and
`trial_expires_at = 5` read at `now = 10` reports trial 0 and total 7 + 3. -/
theorem getBalance_read_only_witness :
    (getBalance 10 ⟨some ⟨7, 3, 50, some 5, 900, 0, 0⟩, [], 0⟩).trialBalance = 0 ∧
    (getBalance 10 ⟨some ⟨7, 3, 50, some 5, 900, 0, 0⟩, [], 0⟩).total = 7 + 3 :=
  getBalance_read_only.2.2 10 ⟨some ⟨7, 3, 50, some 5, 900, 0, 0⟩, [], 0⟩
    ⟨7, 3, 50, some 5, 900, 0, 0⟩ 5 rfl rfl (by decide)

end BfeaiCredits

namespace BfeaiCredits

/-- C8: the cap reconciler: on a failed subscription read it returns the 900
default and writes nothing; otherwise the new cap is 900 when no subscription
has status in {active, trialing, past_due}, else the sum over every qualifying
subscription of its plan's `creditCap` (price-id lookup first, app-key
fallback second, 900 default), and that cap is written to the account row and
returned. -/
theorem recalculateSubscriptionCap_spec (byPriceId byAppKey : String → Option Plan)
    (s : Store) :
    recalculateSubscriptionCap byPriceId byAppKey none s = (900, s) ∧
    ∀ allSubs : List SubRecord,
      recalculateSubscriptionCap byPriceId byAppKey (some allSubs) s =
        ((if (allSubs.filter fun sub => capStatuses.contains sub.status) = [] then 900
          else ((allSubs.filter fun sub => capStatuses.contains sub.status).map
             (subCapContribution byPriceId byAppKey)).sum),
         { s with account := s.account.map fun row =>
             { row with subscription_cap :=
                 if (allSubs.filter fun sub => capStatuses.contains sub.status) = [] then 900
                 else ((allSubs.filter fun sub => capStatuses.contains sub.status).map
                    (subCapContribution byPriceId byAppKey)).sum } }) := by
  refine ⟨rfl, fun allSubs => ?_⟩
  simp only [recalculateSubscriptionCap, updateAccount,
    foldl_add_eq_sum (subCapContribution byPriceId byAppKey), zero_add,
    List.isEmpty_iff]

end BfeaiCredits

namespace BfeaiWebhook

/-- C6: the webhook handler short-circuits an already-processed event id as a
duplicate success without dispatching; a thrown handler leaves the event
unmarked and reports failure; a successful handler marks the event processed
exactly once, after its side effects, so a sequential replay of the same event
id is a duplicate no-op. -/
theorem handleProviderEvent_idempotent {σ ε : Type}
    (dispatch : String → σ → Option ε × σ) (eventId ty ty2 : String)
    (es : EventStore σ) :
    (es.processed.contains eventId = true →
      handleProviderEvent dispatch eventId ty es = (WebhookOutcome.duplicateOk, es)) ∧
    (es.processed.contains eventId = false →
      (∀ w, dispatch ty es.world = (none, w) →
        handleProviderEvent dispatch eventId ty es =
          (WebhookOutcome.processedOk, ⟨es.processed ++ [eventId], w⟩) ∧
        handleProviderEvent dispatch eventId ty2 ⟨es.processed ++ [eventId], w⟩ =
          (WebhookOutcome.duplicateOk, ⟨es.processed ++ [eventId], w⟩)) ∧
      (∀ e w, dispatch ty es.world = (some e, w) →
        handleProviderEvent dispatch eventId ty es =
          (WebhookOutcome.handlerFailed, ⟨es.processed, w⟩))) := by
  refine ⟨fun h => ?_, fun h => ?_⟩
  · have hmem : eventId ∈ es.processed := by simpa using h
    simp [handleProviderEvent, hmem]
  · have hnot : eventId ∉ es.processed := by simpa using h
    refine ⟨fun w hw => ⟨by simp [handleProviderEvent, hnot, hw], ?_⟩, fun e w hw => ?_⟩
    · have hmem : eventId ∈ es.processed ++ [eventId] := by simp
      simp [handleProviderEvent, hmem]
    · simp [handleProviderEvent, hnot, hw]

/-- Witness for C6: a fresh event increments the world and is marked; the
replay is reported as a duplicate and leaves everything unchanged. -/
theorem handleProviderEvent_idempotent_witness :
    handleProviderEvent (fun _ n => ((none : Option Unit), n + 1))
      "evt_1" "invoice.payment_succeeded" (⟨[], 0⟩ : EventStore Nat) =
      (WebhookOutcome.processedOk, ⟨["evt_1"], 1⟩) ∧
    handleProviderEvent (fun _ n => ((none : Option Unit), n + 1))
      "evt_1" "invoice.payment_succeeded" (⟨["evt_1"], 1⟩ : EventStore Nat) =
      (WebhookOutcome.duplicateOk, ⟨["evt_1"], 1⟩) := by
  have h := ((handleProviderEvent_idempotent (fun _ n => ((none : Option Unit), n + 1))
    "evt_1" "invoice.payment_succeeded" "invoice.payment_succeeded"
    (⟨[], 0⟩ : EventStore Nat)).2 rfl).1 1 rfl
  exact ⟨h.1, h.2⟩

end BfeaiWebhook

namespace BfeaiCredits

theorem deductCredits_ok_eq (catalog : String → String → Option Int) (now : Nat)
    (appKey operation : String) (refId : Option String)
    (row : AccountRow) (txns : List Txn) (n : Nat) (c : Int) (b : CreditBalance)
    (hb : getBalance now ⟨some row, txns, n⟩ = b)
    (hc : catalog appKey operation = some c)
    (hge : c ≤ b.total) :
    deductCredits catalog now appKey operation refId ⟨some row, txns, n⟩ =
      Except.ok
        (⟨b.total - c, specDeductTid c b n⟩,
         ⟨some { row with
             trial_balance := b.trialBalance - specFromTrial c b,
             topup_balance := b.topupBalance - specFromTopup c b,
             subscription_balance := b.subscriptionBalance - specFromSub c b,
             lifetime_spent := row.lifetime_spent + c },
          txns ++ specDeductTxns c b appKey operation refId n,
          n + specDeductCount c b⟩) := by
  subst hb
  have hge' : c ≤ row.subscription_balance + row.topup_balance + effectiveTrial now row := by
    simpa [getBalance] using hge
  have hnot : ¬ (row.subscription_balance + row.topup_balance + effectiveTrial now row < c) :=
    not_lt.mpr hge'
  by_cases h1 : 0 < min c (effectiveTrial now row) <;>
  by_cases h2 : 0 < min (c - min c (effectiveTrial now row)) row.topup_balance <;>
  by_cases h3 : 0 < c - min c (effectiveTrial now row) -
      min (c - min c (effectiveTrial now row)) row.topup_balance <;>
  simp only [deductCredits, getCreditCost, hc, specDeductTid, specDeductTxns,
    specDeductCount, specFromTrial, specFromTopup, specFromSub,
    updateAccount, insertTxn, getBalance, gt_iff_lt,
    hnot, h1, h2, h3, if_true, if_false, ite_true, ite_false,
    Option.map_some', List.append_nil, List.nil_append, List.append_assoc, add_zero]

theorem mem_ite_singleton {α : Type} {p : Prop} [Decidable p] {a x : α}
    (h : x ∈ (if p then [a] else ([] : List α))) : x = a := by
  split at h
  · simpa using h
  · simp at h

theorem specDeductTxns_all_usage (c : Int) (b : CreditBalance)
    (appKey operation : String) (refId : Option String) (n : Nat) :
    ∀ tx ∈ specDeductTxns c b appKey operation refId n,
      tx.type = TxType.usage_deduction := by
  intro tx htx
  simp only [specDeductTxns] at htx
  rcases List.mem_append.mp htx with h12 | h
  · rcases List.mem_append.mp h12 with h | h <;> rw [mem_ite_singleton h]
  · rw [mem_ite_singleton h]

theorem specFromSub_nonneg (c : Int) (b : CreditBalance) : 0 ≤ specFromSub c b := by
  have h := min_le_left (c - specFromTrial c b) b.topupBalance
  simp only [specFromSub, specFromTopup]
  omega

/-- C2: a deduction whose cost is covered drains trial first, then top-up,
then subscription (`fromTrial = min(c, trialBalance)`,
`fromTopup = min(c - fromTrial, topupBalance)`, `fromSub` the rest), adds `c`
to `lifetime_spent`, writes one `usage_deduction` transaction per pool with a
positive deduction with progressively computed `balance_after` values, and
returns the id of the last pool transaction written (subscription if touched,
else top-up, else trial). -/
theorem deductCredits_drain_order (catalog : String → String → Option Int)
    (now : Nat) (appKey operation : String) (refId : Option String)
    (row : AccountRow) (txns : List Txn) (n : Nat) (c : Int) (b : CreditBalance)
    (hb : getBalance now ⟨some row, txns, n⟩ = b)
    (hc : catalog appKey operation = some c)
    (hge : c ≤ b.total) :
    deductCredits catalog now appKey operation refId ⟨some row, txns, n⟩ =
      Except.ok
        (⟨b.total - c, specDeductTid c b n⟩,
         ⟨some { row with
             trial_balance := b.trialBalance - specFromTrial c b,
             topup_balance := b.topupBalance - specFromTopup c b,
             subscription_balance := b.subscriptionBalance - specFromSub c b,
             lifetime_spent := row.lifetime_spent + c },
          txns ++ specDeductTxns c b appKey operation refId n,
          n + specDeductCount c b⟩) :=
  deductCredits_ok_eq catalog now appKey operation refId row txns n c b hb hc hge

/-- Witness for C2: the spec's drain example — `trial = 5, topup = 10,
subscription = 100`, cost 12 drains trial 5 and topup 7, leaves the
subscription pool untouched, and returns the topup transaction id. -/
theorem deductCredits_drain_order_witness :
    deductCredits (fun _ _ => some 12) 0 "keywords" "research" none
        ⟨some ⟨100, 10, 5, none, 900, 0, 0⟩, [], 0⟩ =
      Except.ok
        (⟨103, some 1⟩,
         ⟨some ⟨100, 3, 0, none, 900, 0, 12⟩,
          [⟨0, -5, 110, Pool.trial, TxType.usage_deduction,
            "research (keywords)", some "keywords", none⟩,
           ⟨1, -7, 103, Pool.topup, TxType.usage_deduction,
            "research (keywords)", some "keywords", none⟩],
          2⟩) := by
  have h := deductCredits_drain_order (fun _ _ => some 12) 0 "keywords" "research"
    none ⟨100, 10, 5, none, 900, 0, 0⟩ [] 0 12 ⟨100, 10, 5, 115, 900, 0, 0⟩
    rfl rfl (by decide)
  rw [h]; rfl

/-- C3: a deduction whose cost exceeds the effective total fails with
`InsufficientCredits` carrying `required = cost` and `available = total`, and
the store (account row and transaction log) is left completely unchanged. -/
theorem deductCredits_insufficient (env : Env) (now : Nat)
    (appKey operation : String) (refId : Option String) (s : Store) (c : Int)
    (hc : env.catalog appKey operation = some c)
    (hlt : (getBalance now s).total < c) :
    deductCredits env.catalog now appKey operation refId s =
      Except.error (CreditError.insufficientCredits c ((getBalance now s).total)) ∧
    applyOp env (Op.deduct now appKey operation refId) s = s := by
  have h : deductCredits env.catalog now appKey operation refId s =
      Except.error (CreditError.insufficientCredits c ((getBalance now s).total)) := by
    simp [deductCredits, getCreditCost, hc, hlt]
  exact ⟨h, by simp [applyOp, h]⟩

/-- Witness for C3: `total = 3` against `cost = 10` fails with
`required = 10, available = 3`, and the store is unchanged. -/
theorem deductCredits_insufficient_witness :
    deductCredits (fun _ _ => some 10) 0 "keywords" "research" none
        ⟨some ⟨0, 3, 0, none, 900, 0, 0⟩, [], 0⟩ =
      Except.error (CreditError.insufficientCredits 10 3) ∧
    applyOp ⟨fun _ _ => some 10, fun _ => none, fun _ => none⟩
        (Op.deduct 0 "keywords" "research" none)
        ⟨some ⟨0, 3, 0, none, 900, 0, 0⟩, [], 0⟩ =
      ⟨some ⟨0, 3, 0, none, 900, 0, 0⟩, [], 0⟩ := by
  have h := deductCredits_insufficient
    ⟨fun _ _ => some 10, fun _ => none, fun _ => none⟩ 0 "keywords" "research"
    none ⟨some ⟨0, 3, 0, none, 900, 0, 0⟩, [], 0⟩ 10 rfl (by decide)
  exact ⟨h.1, h.2⟩

/-- C9: on an account whose `trial_expires_at` has passed while the stored
`trial_balance` is still positive, any successful deduction overwrites the
stored `trial_balance` with 0 (it recomputes it from the effective, expired
value) and writes only `usage_deduction` transactions — no `trial_expiry`
audit entry. -/
theorem deductCredits_purges_expired_trial (catalog : String → String → Option Int)
    (now : Nat) (appKey operation : String) (refId : Option String)
    (row : AccountRow) (txns : List Txn) (n : Nat) (c : Int) (t : Nat)
    (hexp : row.trial_expires_at = some t) (ht : t < now)
    (_htrial : 0 < row.trial_balance)
    (hc : catalog appKey operation = some c) (hcpos : 0 ≤ c)
    (hge : c ≤ (getBalance now ⟨some row, txns, n⟩).total) :
    ∃ res s1,
      deductCredits catalog now appKey operation refId ⟨some row, txns, n⟩ =
        Except.ok (res, s1) ∧
      (∃ row1, s1.account = some row1 ∧ row1.trial_balance = 0) ∧
      ∀ tx ∈ s1.txns, tx ∈ txns ∨ tx.type = TxType.usage_deduction := by
  have h := deductCredits_ok_eq catalog now appKey operation refId row txns n c
    (getBalance now ⟨some row, txns, n⟩) rfl hc hge
  have hbt : (getBalance now ⟨some row, txns, n⟩).trialBalance = 0 := by
    simp [getBalance, effectiveTrial, hexp, ht]
  refine ⟨_, _, h, ⟨_, rfl, ?_⟩, ?_⟩
  · show (getBalance now ⟨some row, txns, n⟩).trialBalance -
      specFromTrial c (getBalance now ⟨some row, txns, n⟩) = 0
    rw [hbt, specFromTrial, hbt, min_eq_right hcpos, sub_zero]
  · intro tx htx
    rcases List.mem_append.mp htx with hold | hnew
    · exact Or.inl hold
    · exact Or.inr (specDeductTxns_all_usage _ _ _ _ _ _ tx hnew)

/-- Witness for C9: stored `trial_balance = 50` expired at 5, read at
`now = 10`; a cost-4 deduction succeeds and zeroes the stored trial balance. -/
theorem deductCredits_purges_expired_trial_witness :
    ∃ res s1,
      deductCredits (fun _ _ => some 4) 10 "keywords" "research" none
          ⟨some ⟨20, 6, 50, some 5, 900, 0, 0⟩, [], 0⟩ =
        Except.ok (res, s1) ∧
      (∃ row1, s1.account = some row1 ∧ row1.trial_balance = 0) ∧
      ∀ tx ∈ s1.txns, tx ∈ ([] : List Txn) ∨ tx.type = TxType.usage_deduction :=
  deductCredits_purges_expired_trial (fun _ _ => some 4) 10 "keywords" "research"
    none ⟨20, 6, 50, some 5, 900, 0, 0⟩ [] 0 4 5 rfl (by decide) (by decide)
    rfl (by decide) (by decide)

end BfeaiCredits

namespace BfeaiCredits

theorem allocSub_zero_eq (now : Nat) (amount : Int) (appKey : String)
    (refId : Option String) (row : AccountRow) (txns : List Txn) (n : Nat)
    (h0 : specAllocated amount row.subscription_cap row.subscription_balance = 0) :
    allocateSubscriptionCredits now amount appKey refId ⟨some row, txns, n⟩ =
      (⟨row.subscription_balance + row.topup_balance + effectiveTrial now row, 0⟩,
       ⟨some row, txns, n⟩) := by
  simp only [specAllocated] at h0
  simp [allocateSubscriptionCredits, ensureUserCreditsRow, getBalance, h0]

theorem allocSub_ne_eq (now : Nat) (amount : Int) (appKey : String)
    (refId : Option String) (row : AccountRow) (txns : List Txn) (n : Nat)
    (hne : specAllocated amount row.subscription_cap row.subscription_balance ≠ 0) :
    allocateSubscriptionCredits now amount appKey refId ⟨some row, txns, n⟩ =
      (⟨row.subscription_balance + row.topup_balance + effectiveTrial now row +
          specAllocated amount row.subscription_cap row.subscription_balance,
        specAllocated amount row.subscription_cap row.subscription_balance⟩,
       ⟨some { row with
           subscription_balance := row.subscription_balance +
             specAllocated amount row.subscription_cap row.subscription_balance,
           lifetime_earned := row.lifetime_earned +
             specAllocated amount row.subscription_cap row.subscription_balance },
        txns ++ [⟨n, specAllocated amount row.subscription_cap row.subscription_balance,
          row.subscription_balance + row.topup_balance + effectiveTrial now row +
            specAllocated amount row.subscription_cap row.subscription_balance,
          Pool.subscription, TxType.subscription_allocation,
          s!"Monthly allocation ({appKey})", some appKey, refId⟩],
        n + 1⟩) := by
  simp only [specAllocated] at hne
  simp only [allocateSubscriptionCredits, ensureUserCreditsRow, getBalance,
    updateAccount, insertTxn, specAllocated, hne, if_true, if_false, ite_true,
    ite_false, Option.map_some', List.append_nil, List.nil_append]

/-- C4: `allocateSubscriptionCredits` allocates exactly
`min amount (max 0 (cap - subscriptionBalance))`; at cap (`allocated = 0`) it
returns `allocated = 0` with the balance and store unchanged (no transaction,
no account update); otherwise it increments `subscription_balance` and
`lifetime_earned` by exactly `allocated` and writes exactly one
`subscription_allocation` transaction. -/
theorem allocateSubscriptionCredits_cap (now : Nat) (amount : Int)
    (appKey : String) (refId : Option String)
    (row : AccountRow) (txns : List Txn) (n : Nat) :
    ((allocateSubscriptionCredits now amount appKey refId ⟨some row, txns, n⟩).1).allocated =
      specAllocated amount row.subscription_cap row.subscription_balance ∧
    (specAllocated amount row.subscription_cap row.subscription_balance = 0 →
      allocateSubscriptionCredits now amount appKey refId ⟨some row, txns, n⟩ =
        (⟨row.subscription_balance + row.topup_balance + effectiveTrial now row, 0⟩,
         ⟨some row, txns, n⟩)) ∧
    (0 < specAllocated amount row.subscription_cap row.subscription_balance →
      allocateSubscriptionCredits now amount appKey refId ⟨some row, txns, n⟩ =
        (⟨row.subscription_balance + row.topup_balance + effectiveTrial now row +
            specAllocated amount row.subscription_cap row.subscription_balance,
          specAllocated amount row.subscription_cap row.subscription_balance⟩,
         ⟨some { row with
             subscription_balance := row.subscription_balance +
               specAllocated amount row.subscription_cap row.subscription_balance,
             lifetime_earned := row.lifetime_earned +
               specAllocated amount row.subscription_cap row.subscription_balance },
          txns ++ [⟨n, specAllocated amount row.subscription_cap row.subscription_balance,
            row.subscription_balance + row.topup_balance + effectiveTrial now row +
              specAllocated amount row.subscription_cap row.subscription_balance,
            Pool.subscription, TxType.subscription_allocation,
            s!"Monthly allocation ({appKey})", some appKey, refId⟩],
          n + 1⟩)) := by
  refine ⟨?_, fun h0 => allocSub_zero_eq now amount appKey refId row txns n h0,
    fun hp => allocSub_ne_eq now amount appKey refId row txns n (ne_of_gt hp)⟩
  by_cases h : specAllocated amount row.subscription_cap row.subscription_balance = 0
  · rw [allocSub_zero_eq now amount appKey refId row txns n h]
    exact h.symm
  · rw [allocSub_ne_eq now amount appKey refId row txns n h]

/-- Witness for C4: the spec's example — `subscriptionBalance = 850, cap = 900`
and a requested 300 allocates only 50, landing exactly at the cap, with one
`subscription_allocation` transaction. -/
theorem allocateSubscriptionCredits_cap_witness :
    allocateSubscriptionCredits 0 300 "keywords" none
        ⟨some ⟨850, 0, 0, none, 900, 0, 0⟩, [], 0⟩ =
      (⟨900, 50⟩,
       ⟨some ⟨900, 0, 0, none, 900, 50, 0⟩,
        [⟨0, 50, 900, Pool.subscription, TxType.subscription_allocation,
          "Monthly allocation (keywords)", some "keywords", none⟩], 1⟩) := by
  have h := (allocateSubscriptionCredits_cap 0 300 "keywords" none
    ⟨850, 0, 0, none, 900, 0, 0⟩ [] 0).2.2 (by decide)
  rw [h]; rfl

theorem getBalance_some (now : Nat) (s : Store) (row : AccountRow)
    (h : s.account = some row) :
    getBalance now s =
      ⟨row.subscription_balance, row.topup_balance, effectiveTrial now row,
       row.subscription_balance + row.topup_balance + effectiveTrial now row,
       row.subscription_cap, row.lifetime_earned, row.lifetime_spent⟩ := by
  obtain ⟨acc, txns, n⟩ := s
  simp only [Store.account] at h
  subst h
  rfl

theorem deduct_ok_account (catalog : String → String → Option Int) (now : Nat)
    (appKey operation : String) (refId : Option String) (s : Store)
    (res : DeductResult) (s1 : Store)
    (hd : deductCredits catalog now appKey operation refId s = Except.ok (res, s1)) :
    ∃ c, catalog appKey operation = some c ∧
      s1.account = s.account.map (fun row =>
        { row with
            trial_balance := (getBalance now s).trialBalance -
              specFromTrial c (getBalance now s),
            topup_balance := (getBalance now s).topupBalance -
              specFromTopup c (getBalance now s),
            subscription_balance := (getBalance now s).subscriptionBalance -
              specFromSub c (getBalance now s),
            lifetime_spent := (getBalance now s).lifetimeSpent + c }) := by
  cases hcat : catalog appKey operation with
  | none => simp [deductCredits, getCreditCost, hcat] at hd
  | some c =>
      refine ⟨c, rfl, ?_⟩
      by_cases hlt : (getBalance now s).total < c
      · simp [deductCredits, getCreditCost, hcat, hlt] at hd
      · by_cases h1 : 0 < min c (getBalance now s).trialBalance <;>
        by_cases h2 : 0 < min (c - min c (getBalance now s).trialBalance)
            (getBalance now s).topupBalance <;>
        by_cases h3 : 0 < c - min c (getBalance now s).trialBalance -
            min (c - min c (getBalance now s).trialBalance)
              (getBalance now s).topupBalance <;>
        · simp only [deductCredits, getCreditCost, hcat, hlt, gt_iff_lt,
            h1, h2, h3, if_true, if_false, ite_true, ite_false,
            insertTxn, updateAccount, Except.ok.injEq, Prod.mk.injEq] at hd
          obtain ⟨-, hs⟩ := hd
          subst hs
          simp only [specFromTrial, specFromTopup, specFromSub]

theorem capInv_deduct (env : Env) (now : Nat) (appKey operation : String)
    (refId : Option String) (s : Store) (h : capInvariant s) :
    capInvariant (applyOp env (Op.deduct now appKey operation refId) s) := by
  cases hd : deductCredits env.catalog now appKey operation refId s with
  | error e => simpa [applyOp, hd] using h
  | ok p =>
      have happ : applyOp env (Op.deduct now appKey operation refId) s = p.2 := by
        simp [applyOp, hd]
      rw [happ]
      obtain ⟨c, hcat, hacc⟩ := deduct_ok_account env.catalog now appKey operation
        refId s p.1 p.2 (by rw [hd])
      intro r hr
      rw [hacc] at hr
      cases hs : s.account with
      | none => rw [hs] at hr; simp at hr
      | some row =>
          rw [hs] at hr
          simp only [Option.map_some'] at hr
          cases Option.some.inj hr
          have hgb : (getBalance now s).subscriptionBalance = row.subscription_balance := by
            rw [getBalance_some now s row hs]
          have hnn := specFromSub_nonneg c (getBalance now s)
          have hrow := h row hs
          show (getBalance now s).subscriptionBalance -
            specFromSub c (getBalance now s) ≤ row.subscription_cap
          omega

theorem capInv_allocSub (now : Nat) (amount : Int) (appKey : String)
    (refId : Option String) (s : Store) (h : capInvariant s) :
    capInvariant (allocateSubscriptionCredits now amount appKey refId s).2 := by
  obtain ⟨acc, txns, n⟩ := s
  have key : ∀ row : AccountRow, row.subscription_balance ≤ row.subscription_cap →
      capInvariant (allocateSubscriptionCredits now amount appKey refId
        ⟨some row, txns, n⟩).2 := by
    intro row hrow
    by_cases h0 : specAllocated amount row.subscription_cap row.subscription_balance = 0
    · rw [allocSub_zero_eq now amount appKey refId row txns n h0]
      intro r hr
      replace hr : some row = some r := hr
      cases Option.some.inj hr
      exact hrow
    · rw [allocSub_ne_eq now amount appKey refId row txns n h0]
      intro r hr
      replace hr : some { row with
          subscription_balance := row.subscription_balance +
            specAllocated amount row.subscription_cap row.subscription_balance,
          lifetime_earned := row.lifetime_earned +
            specAllocated amount row.subscription_cap row.subscription_balance } =
        some r := hr
      cases Option.some.inj hr
      show row.subscription_balance +
          specAllocated amount row.subscription_cap row.subscription_balance ≤
        row.subscription_cap
      have hle : specAllocated amount row.subscription_cap row.subscription_balance ≤
          max 0 (row.subscription_cap - row.subscription_balance) := min_le_right _ _
      have hmax : max 0 (row.subscription_cap - row.subscription_balance) =
          row.subscription_cap - row.subscription_balance := max_eq_right (by omega)
      rw [hmax] at hle
      omega
  cases acc with
  | some row => exact key row (h row rfl)
  | none => exact key defaultRow (by decide)

theorem capInv_allocTopup (now : Nat) (amount : Int) (packName : String)
    (refId : Option String) (s : Store) (h : capInvariant s) :
    capInvariant (allocateTopUpCredits now amount packName refId s).2 := by
  obtain ⟨acc, txns, n⟩ := s
  have key : ∀ row : AccountRow, row.subscription_balance ≤ row.subscription_cap →
      capInvariant (allocateTopUpCredits now amount packName refId
        ⟨some row, txns, n⟩).2 := by
    intro row hrow r hr
    replace hr : some { row with
        topup_balance := row.topup_balance + amount,
        lifetime_earned := row.lifetime_earned + amount } = some r := hr
    cases Option.some.inj hr
    exact hrow
  cases acc with
  | some row => exact key row (h row rfl)
  | none => exact key defaultRow (by decide)

theorem capInv_allocBonus (now : Nat) (amount : Int) (s : Store)
    (h : capInvariant s) :
    capInvariant (allocateRetentionBonus now amount s).2 := by
  obtain ⟨acc, txns, n⟩ := s
  have key : ∀ row : AccountRow, row.subscription_balance ≤ row.subscription_cap →
      capInvariant (allocateRetentionBonus now amount ⟨some row, txns, n⟩).2 := by
    intro row hrow r hr
    replace hr : some { row with
        topup_balance := row.topup_balance + amount,
        lifetime_earned := row.lifetime_earned + amount } = some r := hr
    cases Option.some.inj hr
    exact hrow
  cases acc with
  | some row => exact key row (h row rfl)
  | none => exact key defaultRow (by decide)

theorem capInv_allocTrial (now : Nat) (amount : Int) (appKey : String)
    (trialEndsAt : Nat) (refId : Option String) (s : Store) (h : capInvariant s) :
    capInvariant (allocateTrialCredits now amount appKey trialEndsAt refId s).2 := by
  obtain ⟨acc, txns, n⟩ := s
  have key : ∀ row : AccountRow, row.subscription_balance ≤ row.subscription_cap →
      capInvariant (allocateTrialCredits now amount appKey trialEndsAt refId
        ⟨some row, txns, n⟩).2 := by
    intro row hrow r hr
    replace hr : some { row with
        trial_balance := amount,
        trial_expires_at := some trialEndsAt,
        lifetime_earned := row.lifetime_earned + amount } = some r := hr
    cases Option.some.inj hr
    exact hrow
  cases acc with
  | some row => exact key row (h row rfl)
  | none => exact key defaultRow (by decide)

theorem capInv_expireTrial (now : Nat) (appKey reason : String) (s : Store)
    (h : capInvariant s) :
    capInvariant (expireTrialCredits now appKey reason s) := by
  obtain ⟨acc, txns, n⟩ := s
  cases acc with
  | none => exact h
  | some row =>
      by_cases h0 : row.trial_balance = 0
      · simpa [expireTrialCredits, h0] using h
      · intro r hr
        replace hr : some { row with trial_balance := 0, trial_expires_at := none } =
            some r := by
          simpa [expireTrialCredits, h0, updateAccount, insertTxn] using hr
        cases Option.some.inj hr
        exact h row rfl

theorem capInv_mergeTrial (now : Nat) (appKey : String) (s : Store)
    (h : capInvariant s) :
    capInvariant (mergeTrialCredits now appKey s).2 := by
  obtain ⟨acc, txns, n⟩ := s
  cases acc with
  | none => exact h
  | some row =>
      by_cases h0 : row.trial_balance = 0
      · rw [mergeTrialCredits_zero_eq now appKey row txns n h0]
        exact h
      · rw [mergeTrialCredits_pos_eq now appKey row txns n h0]
        intro r hr
        replace hr : some { row with
            trial_balance := 0,
            trial_expires_at := none,
            subscription_balance := row.subscription_balance +
              specAllocated row.trial_balance row.subscription_cap
                row.subscription_balance } = some r := hr
        cases Option.some.inj hr
        show row.subscription_balance +
            specAllocated row.trial_balance row.subscription_cap
              row.subscription_balance ≤ row.subscription_cap
        have hrow := h row rfl
        have hle : specAllocated row.trial_balance row.subscription_cap
            row.subscription_balance ≤
            max 0 (row.subscription_cap - row.subscription_balance) := min_le_right _ _
        have hmax : max 0 (row.subscription_cap - row.subscription_balance) =
            row.subscription_cap - row.subscription_balance := max_eq_right (by omega)
        rw [hmax] at hle
        omega

end BfeaiCredits

namespace BfeaiCredits

/-- C1 (amended): the reported total always equals
`subscriptionBalance + topupBalance + effectiveTrialBalance`, and the reported
trial balance is 0 once `trial_expires_at` has passed; every engine operation
other than `recalculateSubscriptionCap` preserves
`subscriptionBalance ≤ subscriptionCap`.  (The original claim fails:
`recalculateSubscriptionCap` can write a cap smaller than the current
`subscriptionBalance` — see the counterexample.) -/
theorem engine_invariants_amended :
    (∀ (now : Nat) (s : Store),
       (getBalance now s).total = (getBalance now s).subscriptionBalance +
         (getBalance now s).topupBalance + (getBalance now s).trialBalance) ∧
    (∀ (now : Nat) (s : Store) (row : AccountRow) (t : Nat),
       s.account = some row → row.trial_expires_at = some t → t < now →
       (getBalance now s).trialBalance = 0) ∧
    (∀ (env : Env) (op : Op) (s : Store), op.isRecalcCap = false →
       capInvariant s → capInvariant (applyOp env op s)) := by
  refine ⟨?_, ?_, ?_⟩
  · intro now s
    obtain ⟨acc, txns, n⟩ := s
    cases acc <;> simp [getBalance]
  · intro now s row t hrow hexp ht
    obtain ⟨acc, txns, n⟩ := s
    simp only [Store.account] at hrow
    subst hrow
    simp [getBalance, effectiveTrial, hexp, ht]
  · intro env op s hop h
    cases op with
    | deduct now appKey operation refId =>
        exact capInv_deduct env now appKey operation refId s h
    | allocSub now amount appKey refId =>
        exact capInv_allocSub now amount appKey refId s h
    | allocTopup now amount packName refId =>
        exact capInv_allocTopup now amount packName refId s h
    | allocBonus now amount => exact capInv_allocBonus now amount s h
    | allocTrial now amount appKey trialEndsAt refId =>
        exact capInv_allocTrial now amount appKey trialEndsAt refId s h
    | expireTrial now appKey reason => exact capInv_expireTrial now appKey reason s h
    | mergeTrial now appKey => exact capInv_mergeTrial now appKey s h
    | recalcCap fetch => simp [Op.isRecalcCap] at hop
    | readBalance now => exact h

/-- Witness for C1 (amended): a merge on a concrete in-cap account preserves
the cap bound. -/
theorem engine_invariants_amended_witness :
    capInvariant (applyOp envNone (Op.mergeTrial 0 "keywords")
      ⟨some ⟨880, 0, 40, none, 900, 0, 0⟩, [], 0⟩) :=
  engine_invariants_amended.2.2 envNone (Op.mergeTrial 0 "keywords")
    ⟨some ⟨880, 0, 40, none, 900, 0, 0⟩, [], 0⟩ rfl (by decide)

/-- Counterexample for C1 as stated: starting from the empty store, allocate
100 (cap 900), recalculate the cap with two qualifying subscriptions that
match no plan (900 + 900 = 1800), allocate 1700 more (balance 1800 = cap),
then recalculate after both subscriptions lapse: the reconciler writes cap 900
while `subscription_balance` is still 1800, so the reachable state violates
`subscriptionBalance ≤ subscriptionCap` and `recalculateSubscriptionCap` does
write a cap smaller than the current balance. -/
theorem cap_invariant_counterexample :
    ((runOps envNone
        [Op.allocSub 0 100 "keywords" none,
         Op.recalcCap (some [⟨"keywords", none, "active"⟩, ⟨"labs", none, "active"⟩]),
         Op.allocSub 0 1700 "keywords" none]
        initialStore).account.map AccountRow.subscription_balance = some 1800) ∧
    (recalculateSubscriptionCap envNone.byPriceId envNone.byAppKey (some [])
        (runOps envNone
          [Op.allocSub 0 100 "keywords" none,
           Op.recalcCap (some [⟨"keywords", none, "active"⟩, ⟨"labs", none, "active"⟩]),
           Op.allocSub 0 1700 "keywords" none]
          initialStore)).1 = 900 ∧
    ∃ row,
      (runOps envNone
          [Op.allocSub 0 100 "keywords" none,
           Op.recalcCap (some [⟨"keywords", none, "active"⟩, ⟨"labs", none, "active"⟩]),
           Op.allocSub 0 1700 "keywords" none,
           Op.recalcCap (some [])]
          initialStore).account = some row ∧
      row.subscription_cap < row.subscription_balance := by
  refine ⟨by decide, by decide, ⟨1800, 0, 0, none, 900, 1800, 0⟩, by decide, by decide⟩

end BfeaiCredits
